import Mathlib

/-!
Verification of the hostasis-cli key-derivation and feed-state-resolution
subsystem.  The definitions below are a shallow embedding of the TypeScript
sources (src/src/utils/crypto.ts, src/unnamed/part_002 = src/utils/swarm.ts,
and the upload/feed command modules inlined in src/README.md).  Byte arrays
are lists of naturals (each < 256 where a Uint8Array is meant), JavaScript
numbers that can be NaN are the type JsNum, `null` is Option.none, and a
thrown exception is an `Except.error`.  External services (the JSON-RPC
endpoint and the gateway HTTP API) are oracles passed in as functions.
-/

set_option maxRecDepth 10000

/-- JavaScript number restricted to the values arising here: an integer or
NaN (produced by `parseInt` on a digit-free string). -/
inductive JsNum where
  | nan : JsNum
  | int : Int → JsNum
deriving DecidableEq, Repr

/-- JavaScript whitespace characters relevant to `parseInt` trimming. -/
def isJsSpace (c : Char) : Bool :=
  c = ' ' || c = '\t' || c = '\n' || c = '\r' || c = '\x0b' || c = '\x0c'

/-- Value of a hexadecimal digit (either case), `none` otherwise. -/
def hexVal? (c : Char) : Option Nat :=
  if '0' ≤ c && c ≤ '9' then some (c.toNat - 48)
  else if 'a' ≤ c && c ≤ 'f' then some (c.toNat - 87)
  else if 'A' ≤ c && c ≤ 'F' then some (c.toNat - 55)
  else none

/-- Value of a decimal digit, `none` otherwise. -/
def decVal? (c : Char) : Option Nat :=
  if '0' ≤ c && c ≤ '9' then some (c.toNat - 48) else none

/-- Horner evaluation of a digit list under a digit-value function. -/
def digitsToNat (dv : Char → Option Nat) (radix : Nat) (ds : List Char) : Nat :=
  ds.foldl (fun a c => radix * a + ((dv c).getD 0)) 0

/-- Radix mode of a `parseInt` call: `hex` models `parseInt(s, 16)`,
`auto` models `parseInt(s)` (base 10 unless the string carries `0x`). -/
inductive IntParseMode where
  | hex : IntParseMode
  | auto : IntParseMode
deriving DecidableEq, Repr

/-- JavaScript `parseInt` on a character list: trim leading whitespace, an
optional sign, an optional `0x`/`0X` marker (mandatory radix 16 when taken in
`auto` mode), then the longest run of digits; NaN when that run is empty. -/
def jsParseIntCore (mode : IntParseMode) (cs : List Char) : JsNum :=
  let t0 := cs.dropWhile isJsSpace
  let neg : Bool := t0.head? = some '-'
  let t1 := if t0.head? = some '-' || t0.head? = some '+' then t0.tail else t0
  let mark : Bool := t1.head? = some '0' &&
    (t1.tail.head? = some 'x' || t1.tail.head? = some 'X')
  let t2 := if mark then t1.tail.tail else t1
  let useHex : Bool := match mode with | .hex => true | .auto => mark
  let ds := t2.takeWhile (fun c => if useHex then (hexVal? c).isSome else (decVal? c).isSome)
  if ds.isEmpty then .nan
  else
    let v : Nat := digitsToNat (if useHex then hexVal? else decVal?) (if useHex then 16 else 10) ds
    .int (if neg then -(v : Int) else (v : Int))

/-- `parseInt(s, 16)` as used on feed-index header/body values. -/
def jsParseInt16 (s : String) : JsNum := jsParseIntCore .hex s.data

/-- `parseInt(s)` as used on the `--depth`, `--index` and `--feed-index`
CLI option strings. -/
def jsParseIntAuto (s : String) : JsNum := jsParseIntCore .auto s.data

/-- Storing a JavaScript number into a Uint8Array cell: NaN becomes 0,
integers are reduced modulo 256. -/
def uint8OfJsNum : JsNum → Nat
  | .nan => 0
  | .int n => (n % 256).toNat

/-- `hex.replace(/^0x/, '')` from crypto.ts: drop one leading literal "0x". -/
def stripHexMark (cs : List Char) : List Char :=
  match cs with
  | a :: b :: r => if a = '0' ∧ b = 'x' then r else a :: b :: r
  | l => l

/-- Consecutive pairs of a list; on even-length input this is exactly the
`slice(i*2, i*2+2)` loop of `hexToBytes`. -/
def chunkPairs : List Char → List (Char × Char)
  | c1 :: c2 :: rest => (c1, c2) :: chunkPairs rest
  | _ => []

/-- One `bytes[i] = parseInt(pair, 16)` step of `hexToBytes`. -/
def hexPairByte (p : Char × Char) : Nat :=
  uint8OfJsNum (jsParseIntCore .hex [p.1, p.2])

/-- crypto.ts `hexToBytes`: strip a `0x` marker, then parse consecutive
2-character slices in base 16 into a Uint8Array.  For an odd remaining
length the JavaScript original throws a RangeError
(`new Uint8Array(len / 2)` with a fractional argument), modelled as `none`. -/
def hexToBytes (hex : String) : Option (List Nat) :=
  let h := stripHexMark hex.data
  if h.length % 2 = 0 then some ((chunkPairs h).map hexPairByte) else none

/-- Lowercase hex digit of a value below 16 (`n.toString(16)` digit). -/
def hexChar (n : Nat) : Char := Char.ofNat (if n < 10 then 48 + n else 87 + n)

/-- Character stream of crypto.ts `bytesToHex`: each byte becomes
`b.toString(16).padStart(2, '0')`, i.e. exactly two lowercase hex digits
for b < 256. -/
def bytesToHexChars : List Nat → List Char
  | [] => []
  | b :: rest => hexChar (b / 16) :: hexChar (b % 16) :: bytesToHexChars rest

/-- crypto.ts `bytesToHex`. -/
def bytesToHex (bytes : List Nat) : String := String.mk (bytesToHexChars bytes)

/-- The sixteen characters `bytesToHex` can emit. -/
def lowerHexChars : List Char :=
  ['f', 'e', 'd', 'c', 'b', 'a', '9', '8', '7', '6', '5', '4', '3', '2', '1', '0']

/-- A lowercase hexadecimal digit. -/
def IsLowerHex (c : Char) : Prop := c ∈ lowerHexChars

instance (c : Char) : Decidable (IsLowerHex c) := by
  unfold IsLowerHex; infer_instance

theorem hexChar_mem_lowerHexChars : ∀ n, n < 16 → hexChar n ∈ lowerHexChars := by decide

theorem hexChar_ne_x : ∀ n, n < 16 → hexChar n ≠ 'x' := by decide

theorem hexPairByte_hexChar : ∀ b, b < 256 →
    hexPairByte (hexChar (b / 16), hexChar (b % 16)) = b := by decide

theorem bytesToHexChars_length (l : List Nat) :
    (bytesToHexChars l).length = 2 * l.length := by
  induction l with
  | nil => rfl
  | cons b rest ih => simp [bytesToHexChars, ih]; omega

theorem bytesToHexChars_mem (l : List Nat) (hl : ∀ b ∈ l, b < 256) :
    ∀ c ∈ bytesToHexChars l, IsLowerHex c := by
  induction l with
  | nil => intro c hc; cases hc
  | cons b rest ih =>
    intro c hc
    have hb : b < 256 := hl b (by simp)
    rcases hc with _ | ⟨_, hc⟩
    · exact hexChar_mem_lowerHexChars _ (by omega)
    · rcases hc with _ | ⟨_, hc⟩
      · exact hexChar_mem_lowerHexChars _ (by omega)
      · exact ih (fun x hx => hl x (by simp [hx])) c hc

theorem lowerHex_not_special : ∀ c, IsLowerHex c →
    isJsSpace c = false ∧ c ≠ '-' ∧ c ≠ '+' ∧ c ≠ 'x' ∧ c ≠ 'X' ∧ (hexVal? c).isSome := by
  intro c hc
  simp only [IsLowerHex, lowerHexChars] at hc
  fin_cases hc <;> decide

theorem lowerHex_hexChar_val : ∀ c, IsLowerHex c →
    hexChar ((hexVal? c).getD 0) = c ∧ (hexVal? c).getD 0 < 16 := by
  intro c hc
  simp only [IsLowerHex, lowerHexChars] at hc
  fin_cases hc <;> decide

theorem stripHexMark_bytesToHexChars (l : List Nat) (hl : ∀ b ∈ l, b < 256) :
    stripHexMark (bytesToHexChars l) = bytesToHexChars l := by
  cases l with
  | nil => rfl
  | cons b rest =>
    have hb : b < 256 := hl b (by simp)
    have hx : hexChar (b % 16) ≠ 'x' := hexChar_ne_x _ (by omega)
    have hcond : ¬(hexChar (b / 16) = '0' ∧ hexChar (b % 16) = 'x') := fun h => hx h.2
    simp only [bytesToHexChars, stripHexMark, if_neg hcond]

theorem jsParseIntCore_hexPair (c1 c2 : Char) (h1 : IsLowerHex c1) (h2 : IsLowerHex c2) :
    jsParseIntCore .hex [c1, c2] =
      .int (16 * ((hexVal? c1).getD 0) + (hexVal? c2).getD 0) := by
  obtain ⟨hs1, hm1, hp1, hx1, hX1, hv1⟩ := lowerHex_not_special c1 h1
  obtain ⟨hs2, hm2, hp2, hx2, hX2, hv2⟩ := lowerHex_not_special c2 h2
  simp [jsParseIntCore, List.dropWhile, List.takeWhile, digitsToNat,
    hs1, hs2, hm1, hp1, hx2, hX2, hv1, hv2]

theorem chunkPairs_bytesToHexChars (l : List Nat) (hl : ∀ b ∈ l, b < 256) :
    (chunkPairs (bytesToHexChars l)).map hexPairByte = l := by
  induction l with
  | nil => rfl
  | cons b rest ih =>
    have hb : b < 256 := hl b (by simp)
    simp only [bytesToHexChars, chunkPairs, List.map_cons,
      hexPairByte_hexChar b hb, ih (fun x hx => hl x (by simp [hx]))]

theorem hexToBytes_bytesToHex (l : List Nat) (hl : ∀ b ∈ l, b < 256) :
    hexToBytes (bytesToHex l) = some l := by
  show hexToBytes (String.mk (bytesToHexChars l)) = some l
  simp only [hexToBytes, stripHexMark_bytesToHexChars l hl]
  rw [if_pos (by simp [bytesToHexChars_length])]
  rw [chunkPairs_bytesToHexChars l hl]

theorem listPairInduction (P : List Char → Prop) (h0 : P []) (h1 : ∀ c, P [c])
    (h2 : ∀ a b l, P l → P (a :: b :: l)) : ∀ l, P l
  | [] => h0
  | [c] => h1 c
  | a :: b :: l => h2 a b l (listPairInduction P h0 h1 h2 l)

theorem bytesToHexChars_chunkPairs :
    ∀ cs : List Char, cs.length % 2 = 0 → (∀ c ∈ cs, IsLowerHex c) →
      bytesToHexChars ((chunkPairs cs).map hexPairByte) = cs := by
  refine listPairInduction _ (fun _ _ => rfl) (fun c he _ => by simp at he) ?_
  intro c1 c2 rest ih he hh
  have h1 : IsLowerHex c1 := hh c1 (by simp)
  have h2 : IsLowerHex c2 := hh c2 (by simp [List.mem_cons])
  obtain ⟨hc1, hb1⟩ := lowerHex_hexChar_val c1 h1
  obtain ⟨hc2, hb2⟩ := lowerHex_hexChar_val c2 h2
  set v1 := (hexVal? c1).getD 0 with hv1
  set v2 := (hexVal? c2).getD 0 with hv2
  have hbyte : hexPairByte (c1, c2) = 16 * v1 + v2 := by
    simp only [hexPairByte, jsParseIntCore_hexPair c1 c2 h1 h2, uint8OfJsNum]
    omega
  have hdiv : (16 * v1 + v2) / 16 = v1 := by omega
  have hmod : (16 * v1 + v2) % 16 = v2 := by omega
  have hrest : bytesToHexChars ((chunkPairs rest).map hexPairByte) = rest := by
    refine ih ?_ (fun c hc => hh c (by simp [List.mem_cons, hc]))
    simp only [List.length_cons] at he
    omega
  simp only [chunkPairs, List.map_cons, bytesToHexChars, hbyte, hdiv, hmod, hc1, hc2, hrest]

theorem stripHexMark_lowerHex (cs : List Char) (hh : ∀ c ∈ cs, IsLowerHex c) :
    stripHexMark cs = cs := by
  match cs with
  | [] => rfl
  | [c] => rfl
  | a :: b :: r =>
    have hb : IsLowerHex b := hh b (by simp [List.mem_cons])
    have hx : b ≠ 'x' := (lowerHex_not_special b hb).2.2.2.1
    have hcond : ¬(a = '0' ∧ b = 'x') := fun h => hx h.2
    simp only [stripHexMark, if_neg hcond]

theorem bytesToHex_hexToBytes (s : String) (he : s.data.length % 2 = 0)
    (hh : ∀ c ∈ s.data, IsLowerHex c) :
    ∃ bs, hexToBytes s = some bs ∧ bytesToHex bs = s := by
  obtain ⟨cs⟩ := s
  refine ⟨(chunkPairs cs).map hexPairByte, ?_, ?_⟩
  · simp only [hexToBytes, stripHexMark_lowerHex cs hh]
    rw [if_pos he]
  · show String.mk (bytesToHexChars ((chunkPairs cs).map hexPairByte)) = String.mk cs
    rw [bytesToHexChars_chunkPairs cs he hh]

/-- JavaScript `slice(-k)` on an array: the last k elements. -/
def sliceLast (l : List Nat) (k : Nat) : List Nat := l.drop (l.length - k)

/-- crypto.ts `getAddressFromPrivateKey`, parameterised over the external
noble primitives it imports: `getPublicKey` models
`secp256k1.getPublicKey(bytes, false)` (uncompressed; `none` models the throw
on an invalid scalar or wrong key length) and `keccak` models `keccak_256`.
`none` overall means the call threw. -/
def getAddressFromPrivateKey (getPublicKey : List Nat → Option (List Nat))
    (keccak : List Nat → List Nat) (privateKeyHex : String) : Option (List Nat) :=
  match hexToBytes privateKeyHex with
  | none => none
  | some privateKeyBytes =>
    match getPublicKey privateKeyBytes with
    | none => none
    | some publicKey => some (sliceLast (keccak (publicKey.drop 1)) 20)

/-- The fixed PostageStamp contract address on Gnosis Chain (swarm.ts). -/
def postageStampAddress : String := "0x45a1502382541Cd610CC9068e88727426b696293"

/-- The default value of fetchBatchDepth's rpcUrl parameter in swarm.ts. -/
def defaultBatchDepthRpcUrl : String := "https://rpc.gnosis.gateway.fm"

/-- Outcome of the read-only `batchDepth(bytes32)` contract call: a decoded
uint8, or any throw (revert, unknown batch, timeout, DNS failure, malformed
response) from the viem client. -/
inductive RpcResult where
  | ok : Nat → RpcResult
  | error : RpcResult
deriving DecidableEq, Repr

/-- Arguments recorded for the delegated `writeFeedUpdate` call of the
external @hostasis/swarm-stamper library.  Option String for the key fields
because at runtime JavaScript can pass `undefined` where the type annotation
says string. -/
structure WriteFeedUpdateArgs where
  vaultPrivateKey : Option String
  signerPrivateKey : Option String
  contentReference : String
  feedIndex : JsNum
  batchId : String
  depth : JsNum
  gatewayUrl : String
  topic : List Nat
deriving DecidableEq, Repr

/-- Externally observable actions of a command run, in order. -/
inductive Event where
  | rpcCall (rpcUrl contractAddress functionName arg : String)
  | gatewayFeedGet (gatewayUrl ownerHex topicHex : String)
  | uploadRun (gatewayUrl batchId privateKey : String) (depth : JsNum)
  | feedWrite (args : WriteFeedUpdateArgs)
  | warn (message : String)
deriving DecidableEq, Repr

/-- swarm.ts `fetchBatchDepth`: prefix the batch id with 0x when missing
(`batchId.startsWith('0x')` is modelled on the character list), then
call `batchDepth(bytes32)` on the PostageStamp contract through the given RPC
endpoint; any throw is caught and folded into null (`none`).  In the source
rpcUrl is a parameter with default `defaultBatchDepthRpcUrl`. -/
def fetchBatchDepth (rpc : String → String → RpcResult) (batchId rpcUrl : String) :
    Option Nat × List Event :=
  let prefixedBatchId :=
    if batchId.data.take 2 = ['0', 'x'] then batchId else "0x" ++ batchId
  let ev := Event.rpcCall rpcUrl postageStampAddress "batchDepth" prefixedBatchId
  match rpc rpcUrl prefixedBatchId with
  | .ok depth => (some depth, [ev])
  | .error => (none, [ev])

/-- A JSON scalar as found in a feed response body field (the gateway may
send the index as a hex string or as a number). -/
inductive JsVal where
  | str : String → JsVal
  | num : Int → JsVal
deriving DecidableEq, Repr

/-- A 200 response of the gateway feed endpoint: the two headers and the two
body fields `fetchNextFeedIndex` inspects; `none` is an absent field. -/
structure FeedResponse where
  headerIndexNext : Option String
  headerIndex : Option String
  bodyIndexNext : Option JsVal
  bodyIndex : Option JsVal
deriving DecidableEq, Repr

/-- Outcome of the gateway GET: 404, 200 with a response, or any other
axios rejection (timeout, DNS failure, unexpected status, …). -/
inductive GatewayResult where
  | notFound : GatewayResult
  | ok : FeedResponse → GatewayResult
  | error : GatewayResult
deriving DecidableEq, Repr

/-- `headers[h] || data?.f`: the header string when truthy (present and
non-empty), otherwise the body field. -/
def pickField (header : Option String) (body : Option JsVal) : Option JsVal :=
  match header with
  | some s => if s = "" then body else some (.str s)
  | none => body

/-- JavaScript `x + 1` on a possibly-NaN number. -/
def jsAddOne : JsNum → JsNum
  | .nan => .nan
  | .int n => .int (n + 1)

/-- The response-handling tail of `fetchNextFeedIndex`: prefer the
next-index field (returned directly, hex strings parsed base 16), then the
current-index field (returned plus one), else null. -/
def feedIndexFromResponse (r : FeedResponse) : Option JsNum :=
  match pickField r.headerIndexNext r.bodyIndexNext with
  | some (.str s) => some (jsParseInt16 s)
  | some (.num n) => some (.int n)
  | none =>
    match pickField r.headerIndex r.bodyIndex with
    | some (.str s) => some (jsAddOne (jsParseInt16 s))
    | some (.num n) => some (.int (n + 1))
    | none => none

/-- The all-zero default feed topic (`new Uint8Array(32)`). -/
def nullTopic : List Nat := List.replicate 32 0

/-- swarm.ts `fetchNextFeedIndex`: derive the owner address from the given
private key, GET the gateway feed endpoint for (owner, topic), and map the
response through `feedIndexFromResponse`; 404 yields 0 and every throw is
caught and folded into null.  In the source topic is a parameter with default
`nullTopic`. -/
def fetchNextFeedIndex (getPublicKey : List Nat → Option (List Nat))
    (keccak : List Nat → List Nat)
    (gw : String → String → String → GatewayResult)
    (vaultPrivateKey gatewayUrl : String) (topic : List Nat) :
    Option JsNum × List Event :=
  match getAddressFromPrivateKey getPublicKey keccak vaultPrivateKey with
  | none => (none, [])
  | some owner =>
    let ownerHex := bytesToHex owner
    let topicHex := bytesToHex topic
    let ev := Event.gatewayFeedGet gatewayUrl ownerHex topicHex
    match gw gatewayUrl ownerHex topicHex with
    | .notFound => (some (.int 0), [ev])
    | .ok r => (feedIndexFromResponse r, [ev])
    | .error => (none, [ev])

/-- A character kept verbatim by slug normalisation: [a-z0-9]. -/
def isSlugChar (c : Char) : Bool := ('a' ≤ c && c ≤ 'z') || ('0' ≤ c && c ≤ '9')

/-- Lowercase a character, then map anything outside [a-z0-9] to a hyphen. -/
def slugMapChar (c : Char) : Char :=
  if isSlugChar c.toLower then c.toLower else '-'

/-- Collapse every run of adjacent hyphens to a single hyphen. -/
def squashHyphens (cs : List Char) : List Char :=
  cs.foldr (fun c acc => if c = '-' ∧ acc.head? = some '-' then acc else c :: acc) []

/-- Drop leading and trailing hyphens. -/
def trimHyphens (cs : List Char) : List Char :=
  ((cs.dropWhile (· = '-')).reverse.dropWhile (· = '-')).reverse

/-- The slug pipeline before the emptiness check: lowercase, replace each
maximal run of non-[a-z0-9] characters with a single hyphen, trim hyphens,
truncate to 50 characters. -/
def slugCore (name : String) : List Char :=
  (trimHyphens (squashHyphens (name.data.map slugMapChar))).take 50

/-- JavaScript errors distinguished by the model. -/
inductive JsErr where
  | invalidSlug : JsErr
  | typeError : JsErr
  | invalidKey : JsErr
deriving DecidableEq, Repr

/-- Modelled from the spec: `normalizeProjectSlug` is implemented in the
external @hostasis/swarm-stamper package, whose code is not under src/.
Spec §4.2: lowercases, replaces every maximal run of characters outside
[a-z0-9] with a single `-`, trims leading/trailing `-`, truncates to 50
characters, and fails with InvalidSlug if the result is empty. -/
def normalizeProjectSlug (name : String) : Except JsErr String :=
  let s := slugCore name
  if s = [] then .error .invalidSlug else .ok (String.mk s)

/-- Modelled from the spec: `deriveProjectKey` is implemented in the external
@hostasis/swarm-stamper package, whose code is not under src/.  Spec §4.2 and
the in-repo README: projectKey = keccak256(reserveKeyBytes ‖ utf8(slug)),
surfaced as the hex string in the returned object's `.privateKey` field.
Decoding a malformed parent key throws (`.error`). -/
def deriveProjectKey (keccak : List Nat → List Nat) (parentKeyHex slug : String) :
    Except JsErr String :=
  match hexToBytes parentKeyHex with
  | none => .error .invalidKey
  | some kb => .ok (bytesToHex (keccak (kb ++ slug.data.map Char.toNat)))

/-- DEFAULT_GATEWAY_URL from utils/urls.ts.  urls.ts itself is not under
src/, but the value is pinned by the in-repo README ("default:
https://bzz.sh") and by the hard-coded fallback in updateFeed. -/
def DEFAULT_GATEWAY_URL : String := "https://bzz.sh"

/-- Modelled from the spec: DEFAULT_GNOSIS_RPC_URL from utils/urls.ts is not
under src/; the spec requires the default to be a public Gnosis-Chain RPC
endpoint, and fetchBatchDepth's own parameter default in swarm.ts names
https://rpc.gnosis.gateway.fm. -/
def DEFAULT_GNOSIS_RPC_URL : String := "https://rpc.gnosis.gateway.fm"

/-- JavaScript `o || d` on an optional string: d when o is undefined or "". -/
def jsOrStr (o : Option String) (d : String) : String :=
  match o with
  | some s => if s = "" then d else s
  | none => d

/-- JavaScript truthiness of an optional string. -/
def jsTruthyStr : Option String → Bool
  | some s => s != ""
  | none => false

/-- The /^(0x)?[0-9a-fA-F]{64}$/ validation of the upload and feed commands. -/
def isHex64 (s : String) : Bool :=
  let cs := if s.data.take 2 = ['0', 'x'] then s.data.drop 2 else s.data
  cs.length == 64 && cs.all (fun c => (hexVal? c).isSome)

/-- `options.topic ? hexToBytes(options.topic) : new Uint8Array(32)` as it
appears in updateFeed and in the feed command action: an absent or empty
topic option yields the null topic, otherwise the hex string is decoded
(`none` models the RangeError throw on an odd-length string). -/
def parseTopicOption (t? : Option String) : Option (List Nat) :=
  match t? with
  | some t => if t = "" then some nullTopic else hexToBytes t
  | none => some nullTopic

/-- The argument object of feed.ts `updateFeed`.  Its TypeScript signature
declares a required `vaultKey` property; `reserveKey` is the differently
named property the upload command's call site actually supplies, which
`updateFeed` never reads.  Both are optional here because at runtime either
may be absent from the object literal. -/
structure UpdateFeedArg where
  reference : String
  vaultKey : Option String
  reserveKey : Option String
  batchId : String
  gateway : Option String
  index : Option JsNum
  depth : Option JsNum
  topic : Option String
  project : Option String
deriving DecidableEq, Repr

/-- feed.ts `updateFeed` (the exported API used by the upload command):
apply the `?? 0` / `?? 20` / `|| 'https://bzz.sh'` defaults, derive the
project signer key from `options.vaultKey` when a project is given, and hand
a fully specified request to the external `writeFeedUpdate`.  The returned
value records the arguments of that call; `.error` is a propagated throw. -/
def updateFeed (keccak : List Nat → List Nat) (o : UpdateFeedArg) :
    Except String WriteFeedUpdateArgs :=
  match parseTopicOption o.topic with
  | none => .error "RangeError: invalid typed array length"
  | some topic =>
    let index := o.index.getD (.int 0)
    let depth := o.depth.getD (.int 20)
    let gateway := jsOrStr o.gateway "https://bzz.sh"
    let signerRes : Except String (Option String) :=
      match o.project with
      | some p =>
        if p = "" then .ok none
        else
          match normalizeProjectSlug p with
          | .error _ => .error "Invalid project slug"
          | .ok slug =>
            match o.vaultKey with
            | none => .error "TypeError: undefined vault key"
            | some vk =>
              match deriveProjectKey keccak vk slug with
              | .error _ => .error "TypeError: bad vault key"
              | .ok pk => .ok (some pk)
      | none => .ok none
    match signerRes with
    | .error e => .error e
    | .ok signerPrivateKey =>
      .ok { vaultPrivateKey := o.vaultKey, signerPrivateKey := signerPrivateKey,
            contentReference := o.reference, feedIndex := index, batchId := o.batchId,
            depth := depth, gatewayUrl := gateway, topic := topic }

/-- The depth-resolution block duplicated verbatim in upload.ts and feed.ts:
a truthy --depth option string is parsed and used, otherwise fetchBatchDepth
is consulted and `null` falls back to 20 with a warning (suppressed under
--quiet). -/
def resolveDepth (rpc : String → String → RpcResult)
    (depthOpt : Option String) (batchId rpcUrl : String) (quiet : Bool) :
    JsNum × List Event :=
  if jsTruthyStr depthOpt then (jsParseIntAuto (depthOpt.getD ""), [])
  else
    match fetchBatchDepth rpc batchId rpcUrl with
    | (some d, evs) => (.int d, evs)
    | (none, evs) =>
      (.int 20, evs ++ if quiet then [] else
        [Event.warn "Could not fetch batch depth, using default: 20"])

/-- The index-resolution block duplicated in upload.ts (--feed-index) and
feed.ts (--index): a truthy option string is parsed and used, otherwise
fetchNextFeedIndex is consulted with the feed owner key and `null` falls
back to 0 with a warning (suppressed under --quiet). -/
def resolveIndex (getPublicKey : List Nat → Option (List Nat))
    (keccak : List Nat → List Nat)
    (gw : String → String → String → GatewayResult)
    (indexOpt : Option String) (feedOwnerKey gatewayUrl : String)
    (topic : List Nat) (quiet : Bool) : JsNum × List Event :=
  if jsTruthyStr indexOpt then (jsParseIntAuto (indexOpt.getD ""), [])
  else
    match fetchNextFeedIndex getPublicKey keccak gw feedOwnerKey gatewayUrl topic with
    | (some v, evs) => (v, evs)
    | (none, evs) =>
      (.int 0, evs ++ if quiet then [] else
        [Event.warn "Could not fetch feed index, using default: 0"])

/-- Options of `hostasis feed update` after commander parsing.  All value
options arrive as strings; absent options are `none`.  The commander default
for --gateway is DEFAULT_GATEWAY_URL, but the action re-applies
`|| DEFAULT_GATEWAY_URL` itself, so `none` models an absent flag. -/
structure FeedCmdOptions where
  reference : String
  key : String
  gateway : Option String
  index : Option String
  topic : Option String
  batchId : Option String
  depth : Option String
  project : Option String
  quiet : Bool
deriving DecidableEq, Repr

/-- The action of `hostasis feed update` (feed.ts): validation, topic
parsing, project key derivation, depth resolution (note: the source passes
the *gateway* URL as fetchBatchDepth's rpcUrl argument), index resolution
using the feed owner key, then the delegated `writeFeedUpdate`.  The result
records the write request; the event list records external actions and
warnings in order.  Spinner text that is neither a warning nor an external
action is display-only and not modelled. -/
def feedUpdateAction (getPublicKey : List Nat → Option (List Nat))
    (keccak : List Nat → List Nat)
    (rpc : String → String → RpcResult)
    (gw : String → String → String → GatewayResult)
    (o : FeedCmdOptions) : Except String WriteFeedUpdateArgs × List Event :=
  if ¬ isHex64 o.reference then
    (.error "Invalid reference format (expected 64 hex characters)", [])
  else if ¬ isHex64 o.key then
    (.error "Invalid key format (expected 64 hex characters)", [])
  else if ¬ jsTruthyStr o.batchId then
    (.error "--batch-id is required for feed updates", [])
  else
    let batchId := o.batchId.getD ""
    match parseTopicOption o.topic with
    | none => (.error "RangeError: invalid typed array length", [])
    | some topic =>
      let signerRes : Except String (Option String) :=
        match o.project with
        | some p =>
          if p = "" then .ok none
          else
            match normalizeProjectSlug p with
            | .error _ => .error "Invalid project slug"
            | .ok slug =>
              match deriveProjectKey keccak o.key slug with
              | .error _ => .error "TypeError: bad key"
              | .ok pk => .ok (some pk)
        | none => .ok none
      match signerRes with
      | .error e => (.error e, [])
      | .ok signerPrivateKey =>
        let feedOwnerKey := signerPrivateKey.getD o.key
        let gatewayUrl := jsOrStr o.gateway DEFAULT_GATEWAY_URL
        let depthPair := resolveDepth rpc o.depth batchId gatewayUrl o.quiet
        let indexPair :=
          resolveIndex getPublicKey keccak gw o.index feedOwnerKey gatewayUrl topic o.quiet
        let args : WriteFeedUpdateArgs :=
          { vaultPrivateKey := some o.key, signerPrivateKey := signerPrivateKey,
            contentReference := o.reference, feedIndex := indexPair.1,
            batchId := batchId, depth := depthPair.1, gatewayUrl := gatewayUrl,
            topic := topic }
        (.ok args, depthPair.2 ++ indexPair.2 ++ [Event.feedWrite args])

/-- Options of `hostasis upload` after commander parsing.  gnosisRpc carries
its commander default DEFAULT_GNOSIS_RPC_URL when the flag is absent. -/
structure UploadCmdOptions where
  batchId : String
  key : String
  gateway : Option String
  project : Option String
  feed : Bool
  feedIndex : Option String
  depth : Option String
  gnosisRpc : String
  quiet : Bool
deriving DecidableEq, Repr

/-- The action of `hostasis upload` (upload.ts) with the local file-system
steps (path resolution, globbing, File construction) elided as local I/O:
validation, depth resolution against options.gnosisRpc, the stamped upload
itself (recorded as an event; `uploadReference` is the reference the external
uploader returns), then, under --feed, project key derivation, next-index
resolution, and the call to updateFeed — whose argument object carries the
reserve key under the property name `reserveKey` and leaves `vaultKey`
unset. -/
def uploadAction (getPublicKey : List Nat → Option (List Nat))
    (keccak : List Nat → List Nat)
    (rpc : String → String → RpcResult)
    (gw : String → String → String → GatewayResult)
    (uploadReference : String)
    (o : UploadCmdOptions) : Except String (Option WriteFeedUpdateArgs) × List Event :=
  if ¬ isHex64 o.batchId then
    (.error "Invalid batch ID format (expected 64 hex characters)", [])
  else if ¬ isHex64 o.key then
    (.error "Invalid key format (expected 64 hex characters)", [])
  else
    let depthPair := resolveDepth rpc o.depth o.batchId o.gnosisRpc o.quiet
    let gatewayUrl := jsOrStr o.gateway DEFAULT_GATEWAY_URL
    let upEv := [Event.uploadRun gatewayUrl o.batchId o.key depthPair.1]
    if o.feed then
      let ownerRes : Except String String :=
        match o.project with
        | some p =>
          if p = "" then .ok o.key
          else
            match normalizeProjectSlug p with
            | .error _ => .error "Invalid project slug"
            | .ok slug =>
              match deriveProjectKey keccak o.key slug with
              | .error _ => .error "TypeError: bad key"
              | .ok pk => .ok pk
        | none => .ok o.key
      match ownerRes with
      | .error e => (.error e, depthPair.2 ++ upEv)
      | .ok feedOwnerKey =>
        let indexPair :=
          resolveIndex getPublicKey keccak gw o.feedIndex feedOwnerKey gatewayUrl nullTopic o.quiet
        match updateFeed keccak
            { reference := uploadReference, vaultKey := none, reserveKey := some o.key,
              batchId := o.batchId, gateway := o.gateway, index := some indexPair.1,
              depth := some depthPair.1, topic := none, project := o.project } with
        | .error e => (.error e, depthPair.2 ++ upEv ++ indexPair.2)
        | .ok args =>
          (.ok (some args), depthPair.2 ++ upEv ++ indexPair.2 ++ [Event.feedWrite args])
    else
      (.ok none, depthPair.2 ++ upEv)

/-- Projection selecting the rpc calls of a trace (url, contract, argument). -/
def rpcCallsOf (evs : List Event) : List (String × String × String) :=
  evs.filterMap fun e =>
    match e with
    | .rpcCall u c _ a => some (u, c, a)
    | _ => none

/-- Projection selecting the gateway feed GETs of a trace. -/
def gatewayGetsOf (evs : List Event) : List (String × String × String) :=
  evs.filterMap fun e =>
    match e with
    | .gatewayFeedGet u o t => some (u, o, t)
    | _ => none

/-- Projection selecting the delegated feed writes of a trace. -/
def feedWritesOf (evs : List Event) : List WriteFeedUpdateArgs :=
  evs.filterMap fun e =>
    match e with
    | .feedWrite a => some a
    | _ => none

/-- Projection selecting the warnings of a trace. -/
def warnsOf (evs : List Event) : List String :=
  evs.filterMap fun e =>
    match e with
    | .warn m => some m
    | _ => none

/-- A network event: an RPC call, a gateway GET, a chunk upload, or the
delegated feed write (itself a gateway transmission). -/
def isNetworkEvent : Event → Bool
  | .warn _ => false
  | _ => true

/-- The ten decimal digit characters. -/
def decDigitChars : List Char :=
  ['0', '1', '2', '3', '4', '5', '6', '7', '8', '9']

theorem decDigit_not_special : ∀ c ∈ decDigitChars,
    isJsSpace c = false ∧ c ≠ '-' ∧ c ≠ '+' ∧ c ≠ 'x' ∧ c ≠ 'X' ∧ (decVal? c).isSome := by
  intro c hc
  fin_cases hc <;> decide

theorem takeWhile_all {p : Char → Bool} :
    ∀ l : List Char, (∀ c ∈ l, p c) → l.takeWhile p = l := by
  intro l h
  induction l with
  | nil => rfl
  | cons a t ih =>
    rw [List.takeWhile_cons, if_pos (h a (by simp)), ih (fun c hc => h c (by simp [hc]))]

theorem jsParseInt16_lowerHex (s : String) (hne : s.data ≠ [])
    (hh : ∀ c ∈ s.data, IsLowerHex c) :
    jsParseInt16 s = .int (digitsToNat hexVal? 16 s.data) := by
  obtain ⟨c1, rest, hcs⟩ : ∃ c1 rest, s.data = c1 :: rest := by
    cases hcs : s.data with
    | nil => exact absurd hcs hne
    | cons a t => exact ⟨a, t, rfl⟩
  obtain ⟨hsp, hm, hp, _, _, hv1⟩ := lowerHex_not_special c1 (hh c1 (by simp [hcs]))
  have hxr : rest.head? ≠ some 'x' := by
    cases hr : rest with
    | nil => simp
    | cons c2 r2 =>
      have := (lowerHex_not_special c2 (hh c2 (by simp [hcs, hr]))).2.2.2.1
      simp [this]
  have hXr : rest.head? ≠ some 'X' := by
    cases hr : rest with
    | nil => simp
    | cons c2 r2 =>
      have := (lowerHex_not_special c2 (hh c2 (by simp [hcs, hr]))).2.2.2.2.1
      simp [this]
  have hds : (c1 :: rest).takeWhile (fun c => (hexVal? c).isSome) = c1 :: rest :=
    takeWhile_all _ (fun c hc => (lowerHex_not_special c (hh c (by simp [hcs, hc]))).2.2.2.2.2)
  simp only [jsParseInt16, jsParseIntCore, hcs, List.dropWhile_cons, hsp, Bool.false_eq_true,
    if_false, List.head?_cons, Option.some.injEq, hm, hp, Bool.or_self,
    if_neg (fun h => hm (Option.some.inj h)), List.tail_cons]
  simp [hxr, hXr, hds, hm, hp]

theorem jsParseIntAuto_decDigits (s : String) (hne : s.data ≠ [])
    (hh : ∀ c ∈ s.data, c ∈ decDigitChars) :
    jsParseIntAuto s = .int (digitsToNat decVal? 10 s.data) := by
  obtain ⟨c1, rest, hcs⟩ : ∃ c1 rest, s.data = c1 :: rest := by
    cases hcs : s.data with
    | nil => exact absurd hcs hne
    | cons a t => exact ⟨a, t, rfl⟩
  obtain ⟨hsp, hm, hp, _, _, hv1⟩ := decDigit_not_special c1 (hh c1 (by simp [hcs]))
  have hxr : rest.head? ≠ some 'x' := by
    cases hr : rest with
    | nil => simp
    | cons c2 r2 =>
      have := (decDigit_not_special c2 (hh c2 (by simp [hcs, hr]))).2.2.2.1
      simp [this]
  have hXr : rest.head? ≠ some 'X' := by
    cases hr : rest with
    | nil => simp
    | cons c2 r2 =>
      have := (decDigit_not_special c2 (hh c2 (by simp [hcs, hr]))).2.2.2.2.1
      simp [this]
  have hds : (c1 :: rest).takeWhile (fun c => (decVal? c).isSome) = c1 :: rest :=
    takeWhile_all _ (fun c hc => (decDigit_not_special c (hh c (by simp [hcs, hc]))).2.2.2.2.2)
  simp only [jsParseIntAuto, jsParseIntCore, hcs, List.dropWhile_cons, hsp, Bool.false_eq_true,
    if_false, List.head?_cons, Option.some.injEq, hm, hp, Bool.or_self,
    if_neg (fun h => hm (Option.some.inj h)), List.tail_cons]
  simp [hxr, hXr, hds, hm, hp]

theorem fetchBatchDepth_events (rpc : String → String → RpcResult) (batchId rpcUrl : String) :
    (fetchBatchDepth rpc batchId rpcUrl).2 =
      [Event.rpcCall rpcUrl postageStampAddress "batchDepth"
        (if batchId.data.take 2 = ['0', 'x'] then batchId else "0x" ++ batchId)] := by
  simp only [fetchBatchDepth]
  cases h : rpc rpcUrl (if batchId.data.take 2 = ['0', 'x'] then batchId else "0x" ++ batchId) <;>
    simp [h]

theorem fetchBatchDepth_error (batchId rpcUrl : String) :
    (fetchBatchDepth (fun _ _ => .error) batchId rpcUrl).1 = none := rfl

theorem fetchNextFeedIndex_events (getPublicKey : List Nat → Option (List Nat))
    (keccak : List Nat → List Nat) (gw : String → String → String → GatewayResult)
    (key url : String) (topic addr : List Nat)
    (haddr : getAddressFromPrivateKey getPublicKey keccak key = some addr) :
    (fetchNextFeedIndex getPublicKey keccak gw key url topic).2 =
      [Event.gatewayFeedGet url (bytesToHex addr) (bytesToHex topic)] := by
  simp only [fetchNextFeedIndex, haddr]
  cases h : gw url (bytesToHex addr) (bytesToHex topic) <;> simp [h]

theorem fetchNextFeedIndex_error (getPublicKey : List Nat → Option (List Nat))
    (keccak : List Nat → List Nat) (key url : String) (topic : List Nat) :
    (fetchNextFeedIndex getPublicKey keccak (fun _ _ _ => .error) key url topic).1 = none := by
  simp only [fetchNextFeedIndex]
  cases h : getAddressFromPrivateKey getPublicKey keccak key <;> simp

theorem fetchNextFeedIndex_badKey (getPublicKey : List Nat → Option (List Nat))
    (keccak : List Nat → List Nat) (gw : String → String → String → GatewayResult)
    (key url : String) (topic : List Nat)
    (haddr : getAddressFromPrivateKey getPublicKey keccak key = none) :
    (fetchNextFeedIndex getPublicKey keccak gw key url topic).1 = none := by
  simp only [fetchNextFeedIndex, haddr]

theorem rpcCallsOf_append (a b : List Event) :
    rpcCallsOf (a ++ b) = rpcCallsOf a ++ rpcCallsOf b := by
  simp [rpcCallsOf]

theorem gatewayGetsOf_append (a b : List Event) :
    gatewayGetsOf (a ++ b) = gatewayGetsOf a ++ gatewayGetsOf b := by
  simp [gatewayGetsOf]

theorem feedWritesOf_append (a b : List Event) :
    feedWritesOf (a ++ b) = feedWritesOf a ++ feedWritesOf b := by
  simp [feedWritesOf]

theorem warnsOf_append (a b : List Event) :
    warnsOf (a ++ b) = warnsOf a ++ warnsOf b := by
  simp [warnsOf]

theorem resolveDepth_explicit (rpc : String → String → RpcResult)
    (s batchId rpcUrl : String) (quiet : Bool) (hs : s ≠ "") :
    resolveDepth rpc (some s) batchId rpcUrl quiet = (jsParseIntAuto s, []) := by
  simp [resolveDepth, jsTruthyStr, hs]

theorem resolveDepth_queried (rpc : String → String → RpcResult)
    (batchId rpcUrl : String) (quiet : Bool) :
    (∀ d, (fetchBatchDepth rpc batchId rpcUrl).1 = some d →
      (resolveDepth rpc none batchId rpcUrl quiet).1 = .int d) ∧
    ((fetchBatchDepth rpc batchId rpcUrl).1 = none →
      (resolveDepth rpc none batchId rpcUrl quiet).1 = .int 20 ∧
      (quiet = false →
        "Could not fetch batch depth, using default: 20" ∈
          warnsOf (resolveDepth rpc none batchId rpcUrl quiet).2) ∧
      (quiet = true → warnsOf (resolveDepth rpc none batchId rpcUrl quiet).2 =
        warnsOf (fetchBatchDepth rpc batchId rpcUrl).2)) := by
  rcases hfb : fetchBatchDepth rpc batchId rpcUrl with ⟨v, evs⟩
  cases v with
  | none =>
    refine ⟨by intro d hd; simp at hd, fun _ => ⟨?_, ?_, ?_⟩⟩
    · simp [resolveDepth, hfb, jsTruthyStr]
    · intro hq; simp [resolveDepth, hfb, jsTruthyStr, hq, warnsOf_append, warnsOf]
    · intro hq; simp [resolveDepth, hfb, jsTruthyStr, hq]
  | some d =>
    refine ⟨?_, by intro h; simp at h⟩
    intro d2 hd2
    simp only [Option.some.injEq] at hd2
    simp [resolveDepth, hfb, jsTruthyStr, hd2]

theorem resolveDepth_no_gateway (rpc : String → String → RpcResult)
    (d : Option String) (batchId rpcUrl : String) (quiet : Bool) :
    gatewayGetsOf (resolveDepth rpc d batchId rpcUrl quiet).2 = [] ∧
    feedWritesOf (resolveDepth rpc d batchId rpcUrl quiet).2 = [] := by
  rcases hfb : fetchBatchDepth rpc batchId rpcUrl with ⟨v, evs⟩
  have hev := fetchBatchDepth_events rpc batchId rpcUrl
  rw [hfb] at hev
  simp only at hev
  subst hev
  unfold resolveDepth
  split
  · exact ⟨rfl, rfl⟩
  · rw [hfb]
    cases v <;> cases quiet <;> simp [gatewayGetsOf, feedWritesOf]

theorem resolveIndex_explicit (getPublicKey : List Nat → Option (List Nat))
    (keccak : List Nat → List Nat) (gw : String → String → String → GatewayResult)
    (s key url : String) (topic : List Nat) (quiet : Bool) (hs : s ≠ "") :
    resolveIndex getPublicKey keccak gw (some s) key url topic quiet =
      (jsParseIntAuto s, []) := by
  simp [resolveIndex, jsTruthyStr, hs]

theorem resolveIndex_queried (getPublicKey : List Nat → Option (List Nat))
    (keccak : List Nat → List Nat) (gw : String → String → String → GatewayResult)
    (key url : String) (topic : List Nat) (quiet : Bool) :
    (∀ v, (fetchNextFeedIndex getPublicKey keccak gw key url topic).1 = some v →
      (resolveIndex getPublicKey keccak gw none key url topic quiet).1 = v) ∧
    ((fetchNextFeedIndex getPublicKey keccak gw key url topic).1 = none →
      (resolveIndex getPublicKey keccak gw none key url topic quiet).1 = .int 0 ∧
      (quiet = false →
        "Could not fetch feed index, using default: 0" ∈
          warnsOf (resolveIndex getPublicKey keccak gw none key url topic quiet).2) ∧
      (quiet = true →
        warnsOf (resolveIndex getPublicKey keccak gw none key url topic quiet).2 =
          warnsOf (fetchNextFeedIndex getPublicKey keccak gw key url topic).2)) := by
  rcases hfi : fetchNextFeedIndex getPublicKey keccak gw key url topic with ⟨v, evs⟩
  cases v with
  | none =>
    refine ⟨by intro d hd; simp at hd, fun _ => ⟨?_, ?_, ?_⟩⟩
    · simp [resolveIndex, hfi, jsTruthyStr]
    · intro hq; simp [resolveIndex, hfi, jsTruthyStr, hq, warnsOf_append, warnsOf]
    · intro hq; simp [resolveIndex, hfi, jsTruthyStr, hq]
  | some w =>
    refine ⟨?_, by intro h; simp at h⟩
    intro v2 hv2
    simp only [Option.some.injEq] at hv2
    simp [resolveIndex, hfi, jsTruthyStr, hv2]

theorem fetchNextFeedIndex_events_shape (getPublicKey : List Nat → Option (List Nat))
    (keccak : List Nat → List Nat) (gw : String → String → String → GatewayResult)
    (key url : String) (topic : List Nat) :
    (fetchNextFeedIndex getPublicKey keccak gw key url topic).2 = [] ∨
    ∃ u o t, (fetchNextFeedIndex getPublicKey keccak gw key url topic).2 =
      [Event.gatewayFeedGet u o t] := by
  cases haddr : getAddressFromPrivateKey getPublicKey keccak key with
  | none => left; simp [fetchNextFeedIndex, haddr]
  | some addr =>
    right
    exact ⟨url, bytesToHex addr, bytesToHex topic,
      fetchNextFeedIndex_events getPublicKey keccak gw key url topic addr haddr⟩

theorem resolveIndex_no_rpc (getPublicKey : List Nat → Option (List Nat))
    (keccak : List Nat → List Nat) (gw : String → String → String → GatewayResult)
    (i : Option String) (key url : String) (topic : List Nat) (quiet : Bool) :
    rpcCallsOf (resolveIndex getPublicKey keccak gw i key url topic quiet).2 = [] ∧
    feedWritesOf (resolveIndex getPublicKey keccak gw i key url topic quiet).2 = [] := by
  unfold resolveIndex
  split
  · exact ⟨rfl, rfl⟩
  · rcases hfi : fetchNextFeedIndex getPublicKey keccak gw key url topic with ⟨v, evs⟩
    have hshape := fetchNextFeedIndex_events_shape getPublicKey keccak gw key url topic
    rw [hfi] at hshape
    simp only at hshape
    rcases hshape with h | ⟨u, o, t, h⟩ <;> subst h <;>
      cases v <;> cases quiet <;> simp [rpcCallsOf, feedWritesOf]

theorem resolveIndex_gateway_target (getPublicKey : List Nat → Option (List Nat))
    (keccak : List Nat → List Nat) (gw : String → String → String → GatewayResult)
    (key url : String) (topic addr : List Nat) (quiet : Bool)
    (haddr : getAddressFromPrivateKey getPublicKey keccak key = some addr) :
    gatewayGetsOf (resolveIndex getPublicKey keccak gw none key url topic quiet).2 =
      [(url, bytesToHex addr, bytesToHex topic)] := by
  have hev := fetchNextFeedIndex_events getPublicKey keccak gw key url topic addr haddr
  rcases hfi : fetchNextFeedIndex getPublicKey keccak gw key url topic with ⟨v, evs⟩
  rw [hfi] at hev
  simp only at hev
  subst hev
  unfold resolveIndex
  rw [if_neg (by simp [jsTruthyStr]), hfi]
  cases v <;> cases quiet <;> simp [gatewayGetsOf, warnsOf]

theorem squashHyphens_cons (a : Char) (t : List Char) :
    squashHyphens (a :: t) =
      if a = '-' ∧ (squashHyphens t).head? = some '-' then squashHyphens t
      else a :: squashHyphens t := rfl

theorem mem_squashHyphens (l : List Char) : ∀ c ∈ squashHyphens l, c ∈ l := by
  induction l with
  | nil => intro c hc; cases hc
  | cons a t ih =>
    intro c hc
    rw [squashHyphens_cons] at hc
    split at hc
    · exact List.mem_cons_of_mem a (ih c hc)
    · rcases List.mem_cons.mp hc with h | h
      · exact h ▸ List.mem_cons_self a t
      · exact List.mem_cons_of_mem a (ih c h)

theorem mem_trimHyphens (l : List Char) : ∀ c ∈ trimHyphens l, c ∈ l := by
  intro c hc
  unfold trimHyphens at hc
  rw [List.mem_reverse] at hc
  have h1 := (List.dropWhile_sublist _).subset hc
  rw [List.mem_reverse] at h1
  exact (List.dropWhile_sublist _).subset h1

theorem mem_slugCore (s : String) : ∀ c ∈ slugCore s, isSlugChar c = true ∨ c = '-' := by
  intro c hc
  unfold slugCore at hc
  have h1 := (List.take_sublist _ _).subset hc
  have h2 := mem_trimHyphens _ c h1
  have h3 := mem_squashHyphens _ c h2
  obtain ⟨c0, _, hmap⟩ := List.mem_map.mp h3
  unfold slugMapChar at hmap
  split at hmap
  · left; rw [← hmap]; assumption
  · right; exact hmap.symm

theorem slugCore_length (s : String) : (slugCore s).length ≤ 50 := by
  unfold slugCore
  exact List.length_take_le 50 _

theorem feedUpdateAction_shape (getPublicKey : List Nat → Option (List Nat))
    (keccak : List Nat → List Nat) (rpc : String → String → RpcResult)
    (gw : String → String → String → GatewayResult) (o : FeedCmdOptions)
    (b : String) (tb : List Nat)
    (href : isHex64 o.reference = true) (hkey : isHex64 o.key = true)
    (hb : o.batchId = some b) (hbne : b ≠ "")
    (htopic : parseTopicOption o.topic = some tb)
    (hproj : o.project = none) :
    feedUpdateAction getPublicKey keccak rpc gw o =
      (let gatewayUrl := jsOrStr o.gateway DEFAULT_GATEWAY_URL
       let depthPair := resolveDepth rpc o.depth b gatewayUrl o.quiet
       let indexPair := resolveIndex getPublicKey keccak gw o.index o.key gatewayUrl tb o.quiet
       let args : WriteFeedUpdateArgs :=
         { vaultPrivateKey := some o.key, signerPrivateKey := none,
           contentReference := o.reference, feedIndex := indexPair.1,
           batchId := b, depth := depthPair.1, gatewayUrl := gatewayUrl, topic := tb }
       (.ok args, depthPair.2 ++ indexPair.2 ++ [Event.feedWrite args])) := by
  simp [feedUpdateAction, href, hkey, hb, hbne, htopic, hproj, jsTruthyStr]

theorem feedUpdateAction_shape_project (getPublicKey : List Nat → Option (List Nat))
    (keccak : List Nat → List Nat) (rpc : String → String → RpcResult)
    (gw : String → String → String → GatewayResult) (o : FeedCmdOptions)
    (b p slug pk : String) (tb : List Nat)
    (href : isHex64 o.reference = true) (hkey : isHex64 o.key = true)
    (hb : o.batchId = some b) (hbne : b ≠ "")
    (htopic : parseTopicOption o.topic = some tb)
    (hproj : o.project = some p) (hpne : p ≠ "")
    (hslug : normalizeProjectSlug p = .ok slug)
    (hpk : deriveProjectKey keccak o.key slug = .ok pk) :
    feedUpdateAction getPublicKey keccak rpc gw o =
      (let gatewayUrl := jsOrStr o.gateway DEFAULT_GATEWAY_URL
       let depthPair := resolveDepth rpc o.depth b gatewayUrl o.quiet
       let indexPair := resolveIndex getPublicKey keccak gw o.index pk gatewayUrl tb o.quiet
       let args : WriteFeedUpdateArgs :=
         { vaultPrivateKey := some o.key, signerPrivateKey := some pk,
           contentReference := o.reference, feedIndex := indexPair.1,
           batchId := b, depth := depthPair.1, gatewayUrl := gatewayUrl, topic := tb }
       (.ok args, depthPair.2 ++ indexPair.2 ++ [Event.feedWrite args])) := by
  simp [feedUpdateAction, href, hkey, hb, hbne, htopic, hproj, hpne, hslug, hpk, jsTruthyStr]

theorem uploadAction_shape_nofeed (getPublicKey : List Nat → Option (List Nat))
    (keccak : List Nat → List Nat) (rpc : String → String → RpcResult)
    (gw : String → String → String → GatewayResult) (ref : String) (o : UploadCmdOptions)
    (hb : isHex64 o.batchId = true) (hk : isHex64 o.key = true)
    (hfeed : o.feed = false) :
    uploadAction getPublicKey keccak rpc gw ref o =
      (let depthPair := resolveDepth rpc o.depth o.batchId o.gnosisRpc o.quiet
       let gatewayUrl := jsOrStr o.gateway DEFAULT_GATEWAY_URL
       (.ok none,
        depthPair.2 ++ [Event.uploadRun gatewayUrl o.batchId o.key depthPair.1])) := by
  simp [uploadAction, hb, hk, hfeed]

theorem uploadAction_shape_feed (getPublicKey : List Nat → Option (List Nat))
    (keccak : List Nat → List Nat) (rpc : String → String → RpcResult)
    (gw : String → String → String → GatewayResult) (ref : String) (o : UploadCmdOptions)
    (hb : isHex64 o.batchId = true) (hk : isHex64 o.key = true)
    (hfeed : o.feed = true) (hproj : o.project = none) :
    uploadAction getPublicKey keccak rpc gw ref o =
      (let depthPair := resolveDepth rpc o.depth o.batchId o.gnosisRpc o.quiet
       let gatewayUrl := jsOrStr o.gateway DEFAULT_GATEWAY_URL
       let indexPair :=
         resolveIndex getPublicKey keccak gw o.feedIndex o.key gatewayUrl nullTopic o.quiet
       let args : WriteFeedUpdateArgs :=
         { vaultPrivateKey := none, signerPrivateKey := none, contentReference := ref,
           feedIndex := indexPair.1, batchId := o.batchId, depth := depthPair.1,
           gatewayUrl := gatewayUrl, topic := nullTopic }
       (.ok (some args),
        depthPair.2 ++ [Event.uploadRun gatewayUrl o.batchId o.key depthPair.1] ++
          indexPair.2 ++ [Event.feedWrite args])) := by
  simp [uploadAction, hb, hk, hfeed, hproj, updateFeed, parseTopicOption,
    DEFAULT_GATEWAY_URL, jsOrStr]

/-- With --project and --feed, the upload command's feed update throws: the
project branch of updateFeed dereferences the absent `vaultKey` property.
Index resolution (with the derived project key) still happens first. -/
theorem uploadAction_shape_feed_project (getPublicKey : List Nat → Option (List Nat))
    (keccak : List Nat → List Nat) (rpc : String → String → RpcResult)
    (gw : String → String → String → GatewayResult) (ref : String) (o : UploadCmdOptions)
    (p slug pk : String)
    (hb : isHex64 o.batchId = true) (hk : isHex64 o.key = true)
    (hfeed : o.feed = true) (hproj : o.project = some p) (hpne : p ≠ "")
    (hslug : normalizeProjectSlug p = .ok slug)
    (hpk : deriveProjectKey keccak o.key slug = .ok pk) :
    uploadAction getPublicKey keccak rpc gw ref o =
      (let depthPair := resolveDepth rpc o.depth o.batchId o.gnosisRpc o.quiet
       let gatewayUrl := jsOrStr o.gateway DEFAULT_GATEWAY_URL
       let indexPair :=
         resolveIndex getPublicKey keccak gw o.feedIndex pk gatewayUrl nullTopic o.quiet
       (.error "TypeError: undefined vault key",
        depthPair.2 ++ [Event.uploadRun gatewayUrl o.batchId o.key depthPair.1] ++
          indexPair.2)) := by
  simp [uploadAction, hb, hk, hfeed, hproj, hpne, hslug, hpk, updateFeed, parseTopicOption,
    DEFAULT_GATEWAY_URL, jsOrStr]

/-- Sample 64-hex private key used by the closed theorems below. -/
def sampleKey : String :=
  "1111111111111111111111111111111111111111111111111111111111111111"

/-- Sample 64-hex batch id. -/
def sampleBatchId : String :=
  "abababababababababababababababababababababababababababababababab"

/-- Sample 64-hex content reference. -/
def sampleRef : String :=
  "cdcdcdcdcdcdcdcdcdcdcdcdcdcdcdcdcdcdcdcdcdcdcdcdcdcdcdcdcdcdcdcd"

/-- A stand-in secp256k1 getPublicKey: every key maps to a fixed 65-byte
uncompressed point. -/
def samplePub : List Nat → Option (List Nat) := fun _ => some (List.replicate 65 4)

/-- A stand-in keccak-256: every input maps to a fixed 32-byte digest. -/
def sampleKeccak : List Nat → List Nat := fun _ => List.replicate 32 7

/-- An RPC endpoint that rejects every call. -/
def rpcDown : String → String → RpcResult := fun _ _ => .error

/-- A gateway that rejects every feed GET. -/
def gwDown : String → String → String → GatewayResult := fun _ _ _ => .error

/-- C10: for every byte array b, hexToBytes (bytesToHex b) = b; bytesToHex
always produces a lowercase hex string of exactly twice the input length;
and for every even-length lowercase hex string s (such a string cannot carry
a 0x marker), bytesToHex (hexToBytes s) = s. -/
theorem c10_hex_roundtrips :
    (∀ l : List Nat, (∀ b ∈ l, b < 256) → hexToBytes (bytesToHex l) = some l) ∧
    (∀ l : List Nat, (bytesToHex l).length = 2 * l.length) ∧
    (∀ l : List Nat, (∀ b ∈ l, b < 256) → ∀ c ∈ (bytesToHex l).data, IsLowerHex c) ∧
    (∀ s : String, s.data.length % 2 = 0 → (∀ c ∈ s.data, IsLowerHex c) →
      ∃ bs, hexToBytes s = some bs ∧ bytesToHex bs = s) := by
  refine ⟨hexToBytes_bytesToHex, ?_, ?_, bytesToHex_hexToBytes⟩
  · intro l
    show (bytesToHexChars l).length = 2 * l.length
    exact bytesToHexChars_length l
  · intro l hl
    exact bytesToHexChars_mem l hl

theorem c10_hex_roundtrips_witness :
    hexToBytes (bytesToHex [0, 171, 255]) = some [0, 171, 255] :=
  c10_hex_roundtrips.1 [0, 171, 255] (by decide)

/-- C9: NormalizeSlug lowercases, replaces runs of characters outside
[a-z0-9] with single hyphens, trims leading/trailing hyphens, truncates to
50 characters, and fails with InvalidSlug exactly when the result is empty;
in particular NormalizeSlug("My Blog!!") = "my-blog". -/
theorem c9_normalize_slug :
    normalizeProjectSlug "My Blog!!" = .ok "my-blog" ∧
    (∀ s r, normalizeProjectSlug s = .ok r →
      r.length ≤ 50 ∧ (∀ c ∈ r.data, isSlugChar c = true ∨ c = '-') ∧
      r = String.mk (slugCore s)) ∧
    (∀ s, normalizeProjectSlug s = .error .invalidSlug ↔ slugCore s = []) := by
  refine ⟨by rfl, ?_, ?_⟩
  · intro s r hr
    simp only [normalizeProjectSlug] at hr
    by_cases hemp : slugCore s = []
    · rw [if_pos hemp] at hr; cases hr
    · rw [if_neg hemp] at hr
      injection hr with h
      subst h
      exact ⟨slugCore_length s, mem_slugCore s, rfl⟩
  · intro s
    simp only [normalizeProjectSlug]
    by_cases hemp : slugCore s = []
    · rw [if_pos hemp]
      exact ⟨fun _ => hemp, fun _ => rfl⟩
    · rw [if_neg hemp]
      exact ⟨fun hcontra => Except.noConfusion hcontra, fun hc => absurd hc hemp⟩

theorem c9_normalize_slug_witness :
    ("my-blog" : String).length ≤ 50 ∧
    (∀ c ∈ ("my-blog" : String).data, isSlugChar c = true ∨ c = '-') ∧
    ("my-blog" : String) = String.mk (slugCore "My Blog!!") :=
  c9_normalize_slug.2.1 "My Blog!!" "my-blog" c9_normalize_slug.1

/-- C8: for every private key whose bytes form a valid secp256k1 scalar
(getPublicKey succeeds with a 65-byte uncompressed point) and any 256-bit
hash, getAddressFromPrivateKey strips the format byte (leaving 64 bytes),
hashes, and returns exactly the low-order 20 bytes of the 32-byte digest;
determinism is definitional: the embedding is a pure function of the key. -/
theorem c8_address_of (getPublicKey : List Nat → Option (List Nat))
    (keccak : List Nat → List Nat) (key : String) (kb pk : List Nat)
    (hkb : hexToBytes key = some kb) (hpk : getPublicKey kb = some pk)
    (hlen : pk.length = 65) (hkec : ∀ b, (keccak b).length = 32) :
    getAddressFromPrivateKey getPublicKey keccak key =
      some ((keccak (pk.drop 1)).drop 12) ∧
    (pk.drop 1).length = 64 ∧
    ∀ a, getAddressFromPrivateKey getPublicKey keccak key = some a → a.length = 20 := by
  have hmain : getAddressFromPrivateKey getPublicKey keccak key =
      some ((keccak (pk.drop 1)).drop 12) := by
    simp [getAddressFromPrivateKey, hkb, hpk, sliceLast, hkec]
  refine ⟨hmain, by simp [hlen], ?_⟩
  intro a ha
  rw [hmain] at ha
  obtain rfl := Option.some.inj ha
  simp [hkec]

theorem c8_address_of_witness :
    getAddressFromPrivateKey samplePub sampleKeccak sampleKey =
      some (List.replicate 20 7) := by
  have h := (c8_address_of samplePub sampleKeccak sampleKey (List.replicate 32 17)
    (List.replicate 65 4) (by decide) rfl (by simp) (fun b => by simp [sampleKeccak])).1
  rw [h]
  rfl

theorem fetchBatchDepth_rpcDown (rpc : String → String → RpcResult)
    (batchId rpcUrl : String) (hrpc : ∀ u a, rpc u a = .error) :
    (fetchBatchDepth rpc batchId rpcUrl).1 = none := by
  simp [fetchBatchDepth, hrpc]

theorem fetchNextFeedIndex_gwDown (getPublicKey : List Nat → Option (List Nat))
    (keccak : List Nat → List Nat) (gw : String → String → String → GatewayResult)
    (key url : String) (topic : List Nat) (hgw : ∀ u o t, gw u o t = .error) :
    (fetchNextFeedIndex getPublicKey keccak gw key url topic).1 = none := by
  simp only [fetchNextFeedIndex]
  cases h : getAddressFromPrivateKey getPublicKey keccak key <;> simp [hgw]

theorem fetchNextFeedIndex_ok (getPublicKey : List Nat → Option (List Nat))
    (keccak : List Nat → List Nat) (key url : String) (topic addr : List Nat)
    (r : FeedResponse)
    (haddr : getAddressFromPrivateKey getPublicKey keccak key = some addr) :
    (fetchNextFeedIndex getPublicKey keccak (fun _ _ _ => .ok r) key url topic).1 =
      feedIndexFromResponse r := by
  simp [fetchNextFeedIndex, haddr]

/-- C3: gateway response handling of fetchNextFeedIndex: HTTP 404 yields 0;
a present next-index field (header preferred over body) is returned
directly, hex strings base-16 decoded, taking priority over any
current-index field; a current-index field alone is returned plus one; with
neither field the result is Absent (none). -/
theorem c3_resolve_next_index (getPublicKey : List Nat → Option (List Nat))
    (keccak : List Nat → List Nat) (key url : String) (topic addr : List Nat)
    (haddr : getAddressFromPrivateKey getPublicKey keccak key = some addr) :
    ((fetchNextFeedIndex getPublicKey keccak (fun _ _ _ => .notFound) key url topic).1 =
      some (.int 0)) ∧
    (∀ r : FeedResponse, ∀ s : String,
      pickField r.headerIndexNext r.bodyIndexNext = some (.str s) →
      (fetchNextFeedIndex getPublicKey keccak (fun _ _ _ => .ok r) key url topic).1 =
        some (jsParseInt16 s)) ∧
    (∀ r : FeedResponse, ∀ n : Int,
      pickField r.headerIndexNext r.bodyIndexNext = some (.num n) →
      (fetchNextFeedIndex getPublicKey keccak (fun _ _ _ => .ok r) key url topic).1 =
        some (.int n)) ∧
    (∀ r : FeedResponse, ∀ s : String,
      pickField r.headerIndexNext r.bodyIndexNext = none →
      pickField r.headerIndex r.bodyIndex = some (.str s) →
      (fetchNextFeedIndex getPublicKey keccak (fun _ _ _ => .ok r) key url topic).1 =
        some (jsAddOne (jsParseInt16 s))) ∧
    (∀ r : FeedResponse, ∀ n : Int,
      pickField r.headerIndexNext r.bodyIndexNext = none →
      pickField r.headerIndex r.bodyIndex = some (.num n) →
      (fetchNextFeedIndex getPublicKey keccak (fun _ _ _ => .ok r) key url topic).1 =
        some (.int (n + 1))) ∧
    (∀ r : FeedResponse,
      pickField r.headerIndexNext r.bodyIndexNext = none →
      pickField r.headerIndex r.bodyIndex = none →
      (fetchNextFeedIndex getPublicKey keccak (fun _ _ _ => .ok r) key url topic).1 =
        none) ∧
    (∀ s : String, s.data ≠ [] → (∀ c ∈ s.data, IsLowerHex c) →
      jsParseInt16 s = .int (digitsToNat hexVal? 16 s.data)) := by
  refine ⟨by simp [fetchNextFeedIndex, haddr], ?_, ?_, ?_, ?_, ?_, jsParseInt16_lowerHex⟩
  · intro r s hnext
    rw [fetchNextFeedIndex_ok getPublicKey keccak key url topic addr r haddr]
    simp [feedIndexFromResponse, hnext]
  · intro r n hnext
    rw [fetchNextFeedIndex_ok getPublicKey keccak key url topic addr r haddr]
    simp [feedIndexFromResponse, hnext]
  · intro r s hnext hcur
    rw [fetchNextFeedIndex_ok getPublicKey keccak key url topic addr r haddr]
    simp [feedIndexFromResponse, hnext, hcur]
  · intro r n hnext hcur
    rw [fetchNextFeedIndex_ok getPublicKey keccak key url topic addr r haddr]
    simp [feedIndexFromResponse, hnext, hcur]
  · intro r hnext hcur
    rw [fetchNextFeedIndex_ok getPublicKey keccak key url topic addr r haddr]
    simp [feedIndexFromResponse, hnext, hcur]

/-- A gateway 200 response carrying only the next-index header "1a". -/
def sampleNextResponse : FeedResponse :=
  { headerIndexNext := some "1a", headerIndex := none,
    bodyIndexNext := none, bodyIndex := none }

theorem c3_resolve_next_index_witness :
    (fetchNextFeedIndex samplePub sampleKeccak (fun _ _ _ => .ok sampleNextResponse)
        sampleKey DEFAULT_GATEWAY_URL nullTopic).1 = some (.int 26) := by
  have h := (c3_resolve_next_index samplePub sampleKeccak sampleKey DEFAULT_GATEWAY_URL
    nullTopic (List.replicate 20 7) (by rfl)).2.1 sampleNextResponse "1a" (by rfl)
  rw [h]
  rfl

/-- C4: neither resolver ever raises: for every input and every external
outcome each returns a numeric value or Absent (none); transport and
contract errors and an invalid key are folded into Absent. -/
theorem c4_resolvers_never_throw (getPublicKey : List Nat → Option (List Nat))
    (keccak : List Nat → List Nat)
    (rpc : String → String → RpcResult) (gw : String → String → String → GatewayResult)
    (batchId rpcUrl key gwUrl : String) (topic : List Nat) :
    ((fetchBatchDepth rpc batchId rpcUrl).1 = none ∨
      ∃ n, (fetchBatchDepth rpc batchId rpcUrl).1 = some n) ∧
    ((fetchNextFeedIndex getPublicKey keccak gw key gwUrl topic).1 = none ∨
      ∃ v, (fetchNextFeedIndex getPublicKey keccak gw key gwUrl topic).1 = some v) ∧
    ((∀ u a, rpc u a = .error) → (fetchBatchDepth rpc batchId rpcUrl).1 = none) ∧
    ((∀ u o t, gw u o t = .error) →
      (fetchNextFeedIndex getPublicKey keccak gw key gwUrl topic).1 = none) ∧
    (getAddressFromPrivateKey getPublicKey keccak key = none →
      (fetchNextFeedIndex getPublicKey keccak gw key gwUrl topic).1 = none) := by
  refine ⟨?_, ?_, fetchBatchDepth_rpcDown rpc batchId rpcUrl,
    fetchNextFeedIndex_gwDown getPublicKey keccak gw key gwUrl topic,
    fetchNextFeedIndex_badKey getPublicKey keccak gw key gwUrl topic⟩
  · cases h : (fetchBatchDepth rpc batchId rpcUrl).1 with
    | none => exact Or.inl rfl
    | some n => exact Or.inr ⟨n, rfl⟩
  · cases h : (fetchNextFeedIndex getPublicKey keccak gw key gwUrl topic).1 with
    | none => exact Or.inl rfl
    | some v => exact Or.inr ⟨v, rfl⟩

theorem c4_resolvers_never_throw_witness :
    (fetchBatchDepth rpcDown sampleBatchId defaultBatchDepthRpcUrl).1 = none ∧
    (fetchNextFeedIndex samplePub sampleKeccak gwDown sampleKey
      DEFAULT_GATEWAY_URL nullTopic).1 = none :=
  ⟨(c4_resolvers_never_throw samplePub sampleKeccak rpcDown gwDown sampleBatchId
      defaultBatchDepthRpcUrl sampleKey DEFAULT_GATEWAY_URL nullTopic).2.2.1
      (fun _ _ => rfl),
   (c4_resolvers_never_throw samplePub sampleKeccak rpcDown gwDown sampleBatchId
      defaultBatchDepthRpcUrl sampleKey DEFAULT_GATEWAY_URL nullTopic).2.2.2.1
      (fun _ _ _ => rfl)⟩

/-- C1 evaluated on the code (code_bug): when the upload command updates the
feed after an upload, the writeFeedUpdate request carries
vaultPrivateKey = undefined (none) instead of the caller's reserve key:
upload.ts passes the key under the property name `reserveKey` while
updateFeed reads the property `vaultKey`, which its own signature declares
required. -/
theorem c1_upload_vault_key_undefined :
    ((feedWritesOf (uploadAction samplePub sampleKeccak rpcDown gwDown sampleRef
        { batchId := sampleBatchId, key := sampleKey, gateway := none, project := none,
          feed := true, feedIndex := some "1", depth := some "20",
          gnosisRpc := DEFAULT_GNOSIS_RPC_URL, quiet := true }).2).map
        (fun a => a.vaultPrivateKey) = [none]) ∧
    (none : Option String) ≠ some sampleKey ∧
    ((feedWritesOf (feedUpdateAction samplePub sampleKeccak rpcDown gwDown
        { reference := sampleRef, key := sampleKey, gateway := none, index := some "1",
          topic := none, batchId := some sampleBatchId, depth := some "20",
          project := none, quiet := true }).2).map
        (fun a => a.vaultPrivateKey) = [some sampleKey]) := by
  exact ⟨by decide, by decide, by decide⟩

/-- C2 evaluated on the code (code_bug): fetchBatchDepth always targets the
fixed PostageStamp contract through the rpcUrl it is given, but the feed
update command passes the Swarm gateway URL (here its default
https://bzz.sh) as that rpcUrl, not a Gnosis RPC endpoint. -/
theorem c2_feed_depth_queries_gateway_url :
    (rpcCallsOf (feedUpdateAction samplePub sampleKeccak rpcDown gwDown
        { reference := sampleRef, key := sampleKey, gateway := none, index := some "1",
          topic := none, batchId := some sampleBatchId, depth := none, project := none,
          quiet := true }).2
      = [(DEFAULT_GATEWAY_URL, postageStampAddress, "0x" ++ sampleBatchId)]) ∧
    DEFAULT_GATEWAY_URL ≠ DEFAULT_GNOSIS_RPC_URL ∧
    (∀ rpc : String → String → RpcResult, ∀ batchId rpcUrl : String,
      rpcCallsOf (fetchBatchDepth rpc batchId rpcUrl).2 =
        [(rpcUrl, postageStampAddress,
          if batchId.data.take 2 = ['0', 'x'] then batchId else "0x" ++ batchId)]) := by
  refine ⟨by decide, by decide, ?_⟩
  intro rpc batchId rpcUrl
  rw [show (fetchBatchDepth rpc batchId rpcUrl).2 = _ from
    fetchBatchDepth_events rpc batchId rpcUrl]
  simp [rpcCallsOf]

/-- C5 counterexample (closed): a feed update invocation whose batch id is
the malformed string "xyz" (with valid key and reference) is not aborted:
the command succeeds and network calls are attempted. -/
theorem c5_counterexample :
    ((feedUpdateAction samplePub sampleKeccak rpcDown gwDown
        { reference := sampleRef, key := sampleKey, gateway := none, index := some "1",
          topic := none, batchId := some "xyz", depth := none, project := none,
          quiet := true }).1.isOk = true) ∧
    ((feedUpdateAction samplePub sampleKeccak rpcDown gwDown
        { reference := sampleRef, key := sampleKey, gateway := none, index := some "1",
          topic := none, batchId := some "xyz", depth := none, project := none,
          quiet := true }).2.any isNetworkEvent = true) := by
  exact ⟨by decide, by decide⟩

/-- C5 amended: the upload command aborts before any network call when its
batch id or key is not 64-hex; the feed update command aborts before any
network call when its reference or key is not 64-hex, and when the batch id
is absent or empty — but a malformed non-empty batch id in the feed command
is only presence-checked, not format-checked. -/
theorem c5_validation_before_network (getPublicKey : List Nat → Option (List Nat))
    (keccak : List Nat → List Nat)
    (rpc : String → String → RpcResult) (gw : String → String → String → GatewayResult)
    (ref : String) (uo : UploadCmdOptions) (fo : FeedCmdOptions) :
    (isHex64 uo.batchId = false →
      uploadAction getPublicKey keccak rpc gw ref uo =
        (.error "Invalid batch ID format (expected 64 hex characters)", [])) ∧
    (isHex64 uo.batchId = true → isHex64 uo.key = false →
      uploadAction getPublicKey keccak rpc gw ref uo =
        (.error "Invalid key format (expected 64 hex characters)", [])) ∧
    (isHex64 fo.reference = false →
      feedUpdateAction getPublicKey keccak rpc gw fo =
        (.error "Invalid reference format (expected 64 hex characters)", [])) ∧
    (isHex64 fo.reference = true → isHex64 fo.key = false →
      feedUpdateAction getPublicKey keccak rpc gw fo =
        (.error "Invalid key format (expected 64 hex characters)", [])) ∧
    (isHex64 fo.reference = true → isHex64 fo.key = true →
      jsTruthyStr fo.batchId = false →
      feedUpdateAction getPublicKey keccak rpc gw fo =
        (.error "--batch-id is required for feed updates", [])) := by
  refine ⟨?_, ?_, ?_, ?_, ?_⟩
  · intro h; simp [uploadAction, h]
  · intro hb hk; simp [uploadAction, hb, hk]
  · intro h; simp [feedUpdateAction, h]
  · intro hr hk; simp [feedUpdateAction, hr, hk]
  · intro hr hk hb; simp [feedUpdateAction, hr, hk, hb]

theorem c5_validation_before_network_witness :
    uploadAction samplePub sampleKeccak rpcDown gwDown sampleRef
        { batchId := "xyz", key := sampleKey, gateway := none, project := none,
          feed := true, feedIndex := none, depth := none,
          gnosisRpc := DEFAULT_GNOSIS_RPC_URL, quiet := true } =
      (.error "Invalid batch ID format (expected 64 hex characters)", []) :=
  (c5_validation_before_network samplePub sampleKeccak rpcDown gwDown sampleRef
      { batchId := "xyz", key := sampleKey, gateway := none, project := none,
        feed := true, feedIndex := none, depth := none,
        gnosisRpc := DEFAULT_GNOSIS_RPC_URL, quiet := true }
      { reference := sampleRef, key := sampleKey, gateway := none, index := none,
        topic := none, batchId := none, depth := none, project := none,
        quiet := true }).1 (by decide)

theorem resolveDepth_rpcDown_eval (rpc : String → String → RpcResult)
    (b u : String) (q : Bool) (hrpc : ∀ u2 a, rpc u2 a = .error) :
    resolveDepth rpc none b u q =
      (.int 20, [Event.rpcCall u postageStampAddress "batchDepth"
        (if b.data.take 2 = ['0', 'x'] then b else "0x" ++ b)] ++
        (if q then [] else
          [Event.warn "Could not fetch batch depth, using default: 20"])) := by
  simp [resolveDepth, jsTruthyStr, fetchBatchDepth, hrpc]

/-- C6 counterexample (closed): a quiet feed update whose depth resolution
fails still completes with fallback depth 20, but records no warning. -/
theorem c6_counterexample :
    ((feedUpdateAction samplePub sampleKeccak rpcDown gwDown
        { reference := sampleRef, key := sampleKey, gateway := none, index := some "1",
          topic := none, batchId := some sampleBatchId, depth := none, project := none,
          quiet := true }).1.isOk = true) ∧
    ((feedWritesOf (feedUpdateAction samplePub sampleKeccak rpcDown gwDown
        { reference := sampleRef, key := sampleKey, gateway := none, index := some "1",
          topic := none, batchId := some sampleBatchId, depth := none, project := none,
          quiet := true }).2).map (fun a => a.depth) = [.int 20]) ∧
    (warnsOf (feedUpdateAction samplePub sampleKeccak rpcDown gwDown
        { reference := sampleRef, key := sampleKey, gateway := none, index := some "1",
          topic := none, batchId := some sampleBatchId, depth := none, project := none,
          quiet := true }).2 = []) := by
  exact ⟨by decide, by decide, by decide⟩

/-- C6 amended: without an explicit depth, a failing depth resolution still
completes the operation with fallback depth 20 and records a warning unless
progress output is suppressed with --quiet; an explicit depth is used
verbatim and no RPC query is made. -/
theorem c6_depth_fallback_and_explicit :
    (∀ gp kc rpc gw (fo : FeedCmdOptions) b tb,
      isHex64 fo.reference = true → isHex64 fo.key = true →
      fo.batchId = some b → b ≠ "" → parseTopicOption fo.topic = some tb →
      fo.project = none → fo.depth = none → (∀ u a, rpc u a = .error) →
      (feedUpdateAction gp kc rpc gw fo).1.isOk = true ∧
      (feedWritesOf (feedUpdateAction gp kc rpc gw fo).2).map (fun a => a.depth) =
        [.int 20] ∧
      (fo.quiet = false →
        "Could not fetch batch depth, using default: 20" ∈
          warnsOf (feedUpdateAction gp kc rpc gw fo).2)) ∧
    (∀ gp kc rpc gw (fo : FeedCmdOptions) b tb s,
      isHex64 fo.reference = true → isHex64 fo.key = true →
      fo.batchId = some b → b ≠ "" → parseTopicOption fo.topic = some tb →
      fo.project = none → fo.depth = some s → s.data ≠ [] →
      (∀ c ∈ s.data, c ∈ decDigitChars) →
      (feedWritesOf (feedUpdateAction gp kc rpc gw fo).2).map (fun a => a.depth) =
        [.int (digitsToNat decVal? 10 s.data)] ∧
      rpcCallsOf (feedUpdateAction gp kc rpc gw fo).2 = []) ∧
    (∀ gp kc rpc gw ref (uo : UploadCmdOptions),
      isHex64 uo.batchId = true → isHex64 uo.key = true → uo.feed = false →
      uo.depth = none → (∀ u a, rpc u a = .error) →
      uploadAction gp kc rpc gw ref uo =
        (.ok none,
         ([Event.rpcCall uo.gnosisRpc postageStampAddress "batchDepth"
            (if uo.batchId.data.take 2 = ['0', 'x'] then uo.batchId
             else "0x" ++ uo.batchId)] ++
          (if uo.quiet then [] else
            [Event.warn "Could not fetch batch depth, using default: 20"])) ++
         [Event.uploadRun (jsOrStr uo.gateway DEFAULT_GATEWAY_URL) uo.batchId uo.key
           (.int 20)])) ∧
    (∀ gp kc rpc gw ref (uo : UploadCmdOptions) s,
      isHex64 uo.batchId = true → isHex64 uo.key = true → uo.feed = false →
      uo.depth = some s → s.data ≠ [] → (∀ c ∈ s.data, c ∈ decDigitChars) →
      uploadAction gp kc rpc gw ref uo =
        (.ok none,
         [Event.uploadRun (jsOrStr uo.gateway DEFAULT_GATEWAY_URL) uo.batchId uo.key
           (.int (digitsToNat decVal? 10 s.data))])) := by
  refine ⟨?_, ?_, ?_, ?_⟩
  · intro gp kc rpc gw fo b tb href hkey hb hbne htopic hproj hdepth hrpc
    rw [feedUpdateAction_shape gp kc rpc gw fo b tb href hkey hb hbne htopic hproj]
    simp only [hdepth]
    have hfb := fetchBatchDepth_rpcDown rpc b (jsOrStr fo.gateway DEFAULT_GATEWAY_URL) hrpc
    have hdq := (resolveDepth_queried rpc b (jsOrStr fo.gateway DEFAULT_GATEWAY_URL)
      fo.quiet).2 hfb
    refine ⟨rfl, ?_, ?_⟩
    · rw [feedWritesOf_append, feedWritesOf_append,
        (resolveDepth_no_gateway rpc none b (jsOrStr fo.gateway DEFAULT_GATEWAY_URL)
          fo.quiet).2,
        (resolveIndex_no_rpc gp kc gw fo.index fo.key
          (jsOrStr fo.gateway DEFAULT_GATEWAY_URL) tb fo.quiet).2]
      simp [feedWritesOf, hdq.1]
    · intro hq
      rw [warnsOf_append, warnsOf_append]
      exact List.mem_append.mpr (Or.inl (List.mem_append.mpr (Or.inl (hdq.2.1 hq))))
  · intro gp kc rpc gw fo b tb s href hkey hb hbne htopic hproj hdepth hne hds
    have hsne : s ≠ "" := fun h => hne (by simp [h])
    rw [feedUpdateAction_shape gp kc rpc gw fo b tb href hkey hb hbne htopic hproj]
    simp only [hdepth,
      resolveDepth_explicit rpc s b (jsOrStr fo.gateway DEFAULT_GATEWAY_URL) fo.quiet hsne]
    constructor
    · rw [feedWritesOf_append, feedWritesOf_append,
        (resolveIndex_no_rpc gp kc gw fo.index fo.key
          (jsOrStr fo.gateway DEFAULT_GATEWAY_URL) tb fo.quiet).2]
      simp [feedWritesOf, jsParseIntAuto_decDigits s hne hds]
    · rw [rpcCallsOf_append, rpcCallsOf_append,
        (resolveIndex_no_rpc gp kc gw fo.index fo.key
          (jsOrStr fo.gateway DEFAULT_GATEWAY_URL) tb fo.quiet).1]
      simp [rpcCallsOf]
  · intro gp kc rpc gw ref uo hb hk hfeed hdepth hrpc
    rw [uploadAction_shape_nofeed gp kc rpc gw ref uo hb hk hfeed]
    simp only [hdepth, resolveDepth_rpcDown_eval rpc uo.batchId uo.gnosisRpc uo.quiet hrpc]
  · intro gp kc rpc gw ref uo s hb hk hfeed hdepth hne hds
    have hsne : s ≠ "" := fun h => hne (by simp [h])
    rw [uploadAction_shape_nofeed gp kc rpc gw ref uo hb hk hfeed]
    simp only [hdepth, resolveDepth_explicit rpc s uo.batchId uo.gnosisRpc uo.quiet hsne,
      jsParseIntAuto_decDigits s hne hds]
    simp

theorem c6_depth_fallback_and_explicit_witness :
    uploadAction samplePub sampleKeccak rpcDown gwDown sampleRef
        { batchId := sampleBatchId, key := sampleKey, gateway := none, project := none,
          feed := false, feedIndex := none, depth := some "20",
          gnosisRpc := DEFAULT_GNOSIS_RPC_URL, quiet := true } =
      (.ok none,
       [Event.uploadRun DEFAULT_GATEWAY_URL sampleBatchId sampleKey (.int 20)]) := by
  have h := c6_depth_fallback_and_explicit.2.2.2 samplePub sampleKeccak rpcDown gwDown
    sampleRef
    { batchId := sampleBatchId, key := sampleKey, gateway := none, project := none,
      feed := false, feedIndex := none, depth := some "20",
      gnosisRpc := DEFAULT_GNOSIS_RPC_URL, quiet := true } "20"
    (by decide) (by decide) rfl rfl (by decide) (by decide)
  rw [h]
  rfl

/-- C7: without an explicit index, next-index resolution queries the gateway
for the owner address derived from the signer's key — the derived project
key when a project is supplied, the reserve key otherwise — and the
requested topic; when resolution returns Absent the index falls back to 0;
an explicit index is used verbatim with no gateway query.  Stated for both
the feed update command and the upload command. -/
theorem c7_index_resolution :
    (∀ gp kc rpc gw (fo : FeedCmdOptions) b tb addr,
      isHex64 fo.reference = true → isHex64 fo.key = true →
      fo.batchId = some b → b ≠ "" → parseTopicOption fo.topic = some tb →
      fo.project = none → fo.index = none →
      getAddressFromPrivateKey gp kc fo.key = some addr →
      gatewayGetsOf (feedUpdateAction gp kc rpc gw fo).2 =
        [(jsOrStr fo.gateway DEFAULT_GATEWAY_URL, bytesToHex addr, bytesToHex tb)]) ∧
    (∀ gp kc rpc gw (fo : FeedCmdOptions) b tb p slug pk addr,
      isHex64 fo.reference = true → isHex64 fo.key = true →
      fo.batchId = some b → b ≠ "" → parseTopicOption fo.topic = some tb →
      fo.project = some p → p ≠ "" → normalizeProjectSlug p = .ok slug →
      deriveProjectKey kc fo.key slug = .ok pk → fo.index = none →
      getAddressFromPrivateKey gp kc pk = some addr →
      gatewayGetsOf (feedUpdateAction gp kc rpc gw fo).2 =
        [(jsOrStr fo.gateway DEFAULT_GATEWAY_URL, bytesToHex addr, bytesToHex tb)]) ∧
    (∀ gp kc rpc gw (fo : FeedCmdOptions) b tb,
      isHex64 fo.reference = true → isHex64 fo.key = true →
      fo.batchId = some b → b ≠ "" → parseTopicOption fo.topic = some tb →
      fo.project = none → fo.index = none → (∀ u o t, gw u o t = .error) →
      (feedWritesOf (feedUpdateAction gp kc rpc gw fo).2).map (fun a => a.feedIndex) =
        [.int 0]) ∧
    (∀ gp kc rpc gw (fo : FeedCmdOptions) b tb s,
      isHex64 fo.reference = true → isHex64 fo.key = true →
      fo.batchId = some b → b ≠ "" → parseTopicOption fo.topic = some tb →
      fo.project = none → fo.index = some s → s.data ≠ [] →
      (∀ c ∈ s.data, c ∈ decDigitChars) →
      gatewayGetsOf (feedUpdateAction gp kc rpc gw fo).2 = [] ∧
      (feedWritesOf (feedUpdateAction gp kc rpc gw fo).2).map (fun a => a.feedIndex) =
        [.int (digitsToNat decVal? 10 s.data)]) ∧
    (∀ gp kc rpc gw ref (uo : UploadCmdOptions) addr,
      isHex64 uo.batchId = true → isHex64 uo.key = true → uo.feed = true →
      uo.project = none → uo.feedIndex = none →
      getAddressFromPrivateKey gp kc uo.key = some addr →
      gatewayGetsOf (uploadAction gp kc rpc gw ref uo).2 =
        [(jsOrStr uo.gateway DEFAULT_GATEWAY_URL, bytesToHex addr, bytesToHex nullTopic)]) ∧
    (∀ gp kc rpc gw ref (uo : UploadCmdOptions) p slug pk addr,
      isHex64 uo.batchId = true → isHex64 uo.key = true → uo.feed = true →
      uo.project = some p → p ≠ "" → normalizeProjectSlug p = .ok slug →
      deriveProjectKey kc uo.key slug = .ok pk → uo.feedIndex = none →
      getAddressFromPrivateKey gp kc pk = some addr →
      gatewayGetsOf (uploadAction gp kc rpc gw ref uo).2 =
        [(jsOrStr uo.gateway DEFAULT_GATEWAY_URL, bytesToHex addr, bytesToHex nullTopic)]) ∧
    (∀ gp kc rpc gw ref (uo : UploadCmdOptions),
      isHex64 uo.batchId = true → isHex64 uo.key = true → uo.feed = true →
      uo.project = none → uo.feedIndex = none → (∀ u o t, gw u o t = .error) →
      (feedWritesOf (uploadAction gp kc rpc gw ref uo).2).map (fun a => a.feedIndex) =
        [.int 0]) ∧
    (∀ gp kc rpc gw ref (uo : UploadCmdOptions) s,
      isHex64 uo.batchId = true → isHex64 uo.key = true → uo.feed = true →
      uo.project = none → uo.feedIndex = some s → s.data ≠ [] →
      (∀ c ∈ s.data, c ∈ decDigitChars) →
      gatewayGetsOf (uploadAction gp kc rpc gw ref uo).2 = [] ∧
      (feedWritesOf (uploadAction gp kc rpc gw ref uo).2).map (fun a => a.feedIndex) =
        [.int (digitsToNat decVal? 10 s.data)]) := by
  refine ⟨?_, ?_, ?_, ?_, ?_, ?_, ?_, ?_⟩
  · intro gp kc rpc gw fo b tb addr href hkey hb hbne htopic hproj hidx haddr
    rw [feedUpdateAction_shape gp kc rpc gw fo b tb href hkey hb hbne htopic hproj]
    simp only [hidx]
    rw [gatewayGetsOf_append, gatewayGetsOf_append,
      (resolveDepth_no_gateway rpc fo.depth b (jsOrStr fo.gateway DEFAULT_GATEWAY_URL)
        fo.quiet).1,
      resolveIndex_gateway_target gp kc gw fo.key (jsOrStr fo.gateway DEFAULT_GATEWAY_URL)
        tb addr fo.quiet haddr]
    simp [gatewayGetsOf]
  · intro gp kc rpc gw fo b tb p slug pk addr href hkey hb hbne htopic hproj hpne hslug
      hpk hidx haddr
    rw [feedUpdateAction_shape_project gp kc rpc gw fo b p slug pk tb href hkey hb hbne
      htopic hproj hpne hslug hpk]
    simp only [hidx]
    rw [gatewayGetsOf_append, gatewayGetsOf_append,
      (resolveDepth_no_gateway rpc fo.depth b (jsOrStr fo.gateway DEFAULT_GATEWAY_URL)
        fo.quiet).1,
      resolveIndex_gateway_target gp kc gw pk (jsOrStr fo.gateway DEFAULT_GATEWAY_URL)
        tb addr fo.quiet haddr]
    simp [gatewayGetsOf]
  · intro gp kc rpc gw fo b tb href hkey hb hbne htopic hproj hidx hgw
    rw [feedUpdateAction_shape gp kc rpc gw fo b tb href hkey hb hbne htopic hproj]
    simp only [hidx]
    rw [feedWritesOf_append, feedWritesOf_append,
      (resolveDepth_no_gateway rpc fo.depth b (jsOrStr fo.gateway DEFAULT_GATEWAY_URL)
        fo.quiet).2,
      (resolveIndex_no_rpc gp kc gw none fo.key (jsOrStr fo.gateway DEFAULT_GATEWAY_URL)
        tb fo.quiet).2]
    have hfi := fetchNextFeedIndex_gwDown gp kc gw fo.key
      (jsOrStr fo.gateway DEFAULT_GATEWAY_URL) tb hgw
    have hiq := ((resolveIndex_queried gp kc gw fo.key
      (jsOrStr fo.gateway DEFAULT_GATEWAY_URL) tb fo.quiet).2 hfi).1
    simp [feedWritesOf, hiq]
  · intro gp kc rpc gw fo b tb s href hkey hb hbne htopic hproj hidx hne hds
    have hsne : s ≠ "" := fun h => hne (by simp [h])
    rw [feedUpdateAction_shape gp kc rpc gw fo b tb href hkey hb hbne htopic hproj]
    simp only [hidx, resolveIndex_explicit gp kc gw s fo.key
      (jsOrStr fo.gateway DEFAULT_GATEWAY_URL) tb fo.quiet hsne]
    constructor
    · rw [gatewayGetsOf_append, gatewayGetsOf_append,
        (resolveDepth_no_gateway rpc fo.depth b (jsOrStr fo.gateway DEFAULT_GATEWAY_URL)
          fo.quiet).1]
      simp [gatewayGetsOf]
    · rw [feedWritesOf_append, feedWritesOf_append,
        (resolveDepth_no_gateway rpc fo.depth b (jsOrStr fo.gateway DEFAULT_GATEWAY_URL)
          fo.quiet).2]
      simp [feedWritesOf, jsParseIntAuto_decDigits s hne hds]
  · intro gp kc rpc gw ref uo addr hb hk hfeed hproj hidx haddr
    rw [uploadAction_shape_feed gp kc rpc gw ref uo hb hk hfeed hproj]
    simp only [hidx]
    rw [gatewayGetsOf_append, gatewayGetsOf_append, gatewayGetsOf_append,
      (resolveDepth_no_gateway rpc uo.depth uo.batchId uo.gnosisRpc uo.quiet).1,
      resolveIndex_gateway_target gp kc gw uo.key (jsOrStr uo.gateway DEFAULT_GATEWAY_URL)
        nullTopic addr uo.quiet haddr]
    simp [gatewayGetsOf]
  · intro gp kc rpc gw ref uo p slug pk addr hb hk hfeed hproj hpne hslug hpk hidx haddr
    rw [uploadAction_shape_feed_project gp kc rpc gw ref uo p slug pk hb hk hfeed hproj
      hpne hslug hpk]
    simp only [hidx]
    rw [gatewayGetsOf_append, gatewayGetsOf_append,
      (resolveDepth_no_gateway rpc uo.depth uo.batchId uo.gnosisRpc uo.quiet).1,
      resolveIndex_gateway_target gp kc gw pk (jsOrStr uo.gateway DEFAULT_GATEWAY_URL)
        nullTopic addr uo.quiet haddr]
    simp [gatewayGetsOf]
  · intro gp kc rpc gw ref uo hb hk hfeed hproj hidx hgw
    rw [uploadAction_shape_feed gp kc rpc gw ref uo hb hk hfeed hproj]
    simp only [hidx]
    rw [feedWritesOf_append, feedWritesOf_append, feedWritesOf_append,
      (resolveDepth_no_gateway rpc uo.depth uo.batchId uo.gnosisRpc uo.quiet).2,
      (resolveIndex_no_rpc gp kc gw none uo.key (jsOrStr uo.gateway DEFAULT_GATEWAY_URL)
        nullTopic uo.quiet).2]
    have hfi := fetchNextFeedIndex_gwDown gp kc gw uo.key
      (jsOrStr uo.gateway DEFAULT_GATEWAY_URL) nullTopic hgw
    have hiq := ((resolveIndex_queried gp kc gw uo.key
      (jsOrStr uo.gateway DEFAULT_GATEWAY_URL) nullTopic uo.quiet).2 hfi).1
    simp [feedWritesOf, hiq]
  · intro gp kc rpc gw ref uo s hb hk hfeed hproj hidx hne hds
    have hsne : s ≠ "" := fun h => hne (by simp [h])
    rw [uploadAction_shape_feed gp kc rpc gw ref uo hb hk hfeed hproj]
    simp only [hidx, resolveIndex_explicit gp kc gw s uo.key
      (jsOrStr uo.gateway DEFAULT_GATEWAY_URL) nullTopic uo.quiet hsne]
    constructor
    · rw [gatewayGetsOf_append, gatewayGetsOf_append, gatewayGetsOf_append,
        (resolveDepth_no_gateway rpc uo.depth uo.batchId uo.gnosisRpc uo.quiet).1]
      simp [gatewayGetsOf]
    · rw [feedWritesOf_append, feedWritesOf_append, feedWritesOf_append,
        (resolveDepth_no_gateway rpc uo.depth uo.batchId uo.gnosisRpc uo.quiet).2]
      simp [feedWritesOf, jsParseIntAuto_decDigits s hne hds]

theorem c7_index_resolution_witness :
    gatewayGetsOf (feedUpdateAction samplePub sampleKeccak rpcDown gwDown
        { reference := sampleRef, key := sampleKey, gateway := none, index := none,
          topic := none, batchId := some sampleBatchId, depth := some "20",
          project := none, quiet := true }).2 =
      [(DEFAULT_GATEWAY_URL, bytesToHex (List.replicate 20 7), bytesToHex nullTopic)] := by
  have h := c7_index_resolution.1 samplePub sampleKeccak rpcDown gwDown
    { reference := sampleRef, key := sampleKey, gateway := none, index := none,
      topic := none, batchId := some sampleBatchId, depth := some "20",
      project := none, quiet := true }
    sampleBatchId nullTopic (List.replicate 20 7)
    (by decide) (by decide) rfl (by decide) rfl rfl rfl (by rfl)
  simpa [jsOrStr] using h
